import Mathlib

set_option autoImplicit false

/-!
Shallow embedding of the pocket-server sync service (`src/main.rs`).

The embedding covers the multipart `/sync` handler (`handle_sync`), the
manifest decode performed by serde on the `payload` field, the metadata
store (the Postgres table `filehash`) and the blob store gateway (S3),
together with the per-entry reconciliation protocol for the Insert,
Update and Delete operation kinds.
-/

namespace PocketServer

/-- JSON values as seen by serde_json; numbers are modelled as integers,
which covers every field the manifest uses (`file_size` and
`modified_time` are `i64` in the source). -/
inductive Json where
  | null : Json
  | bool (b : Bool) : Json
  | num (n : Int) : Json
  | str (s : String) : Json
  | arr (elems : List Json) : Json
  | obj (fields : List (String × Json)) : Json

/-- The `Operation` enum of the source (`#[serde(rename_all = "lowercase")]`). -/
inductive Operation where
  | Insert : Operation
  | Update : Operation
  | Delete : Operation
deriving DecidableEq

/-- The `FileEntry` struct of the source: `file_name` and `file_path` are
required strings, `file_hash` is an optional string, `file_size` and
`modified_time` are required `i64` integers. -/
structure FileEntry where
  file_name : String
  file_path : String
  file_hash : Option String
  file_size : Int
  modified_time : Int
deriving DecidableEq

/-- The `FileFailure` struct of the source: a path plus an error string. -/
structure FileFailure where
  file_path : String
  error : String
deriving DecidableEq

/-- The `OperationResult` struct of the source. -/
structure OperationResult where
  success : List FileEntry
  failure : List FileFailure
deriving DecidableEq

/-- `FileSyncPayload = HashMap<Operation, Vec<FileEntry>>`, modelled as an
association list in serde insertion order (keys are unique because
duplicate JSON keys overwrite, as `HashMap::insert` does). -/
abbrev FileSyncPayload := List (Operation × List FileEntry)

/-- `SyncResponse = HashMap<Operation, OperationResult>`, modelled as an
association list in insertion order. -/
abbrev SyncResponse := List (Operation × OperationResult)

/-! ## Manifest decode (serde semantics for the payload JSON) -/

/-- Smallest and largest `i64` values; serde rejects JSON integers outside
this range when the target field is `i64`. -/
def i64Min : Int := -(2 ^ 63)

/-- Largest `i64` value. -/
def i64Max : Int := 2 ^ 63 - 1

/-- Decode a JSON value into a required `String` field. -/
def decodeFieldString (k : String) (v : Json) : Except String String :=
  match v with
  | .str s => .ok s
  | _ => .error ("invalid type for field " ++ k)

/-- Decode a JSON value into an `Option<String>` field (`null` maps to `None`). -/
def decodeFieldOptString (k : String) (v : Json) : Except String (Option String) :=
  match v with
  | .null => .ok none
  | .str s => .ok (some s)
  | _ => .error ("invalid type for field " ++ k)

/-- Decode a JSON value into a required `i64` field. -/
def decodeFieldI64 (k : String) (v : Json) : Except String Int :=
  match v with
  | .num n =>
      if i64Min ≤ n ∧ n ≤ i64Max then .ok n
      else .error ("out of range for field " ++ k)
  | _ => .error ("invalid type for field " ++ k)

/-- serde's derived struct visitor for `FileEntry`: walk the object's
fields in order, filling each of the five known slots at most once
(duplicates are an error), ignoring unknown fields, and at the end
requiring `file_name`, `file_path`, `file_size` and `modified_time`
while defaulting a missing `file_hash` to `None`. -/
def entryFold : List (String × Json) → Option String → Option String →
    Option (Option String) → Option Int → Option Int → Except String FileEntry
  | [], name?, path?, hash?, size?, mtime? =>
      match name? with
      | none => .error "missing field file_name"
      | some name =>
        match path? with
        | none => .error "missing field file_path"
        | some path =>
          match size? with
          | none => .error "missing field file_size"
          | some size =>
            match mtime? with
            | none => .error "missing field modified_time"
            | some mtime => .ok ⟨name, path, hash?.getD none, size, mtime⟩
  | (k, v) :: rest, name?, path?, hash?, size?, mtime? =>
      if k = "file_name" then
        match name? with
        | some _ => .error "duplicate field file_name"
        | none =>
          match decodeFieldString k v with
          | .error e => .error e
          | .ok s => entryFold rest (some s) path? hash? size? mtime?
      else if k = "file_path" then
        match path? with
        | some _ => .error "duplicate field file_path"
        | none =>
          match decodeFieldString k v with
          | .error e => .error e
          | .ok s => entryFold rest name? (some s) hash? size? mtime?
      else if k = "file_hash" then
        match hash? with
        | some _ => .error "duplicate field file_hash"
        | none =>
          match decodeFieldOptString k v with
          | .error e => .error e
          | .ok h => entryFold rest name? path? (some h) size? mtime?
      else if k = "file_size" then
        match size? with
        | some _ => .error "duplicate field file_size"
        | none =>
          match decodeFieldI64 k v with
          | .error e => .error e
          | .ok n => entryFold rest name? path? hash? (some n) mtime?
      else if k = "modified_time" then
        match mtime? with
        | some _ => .error "duplicate field modified_time"
        | none =>
          match decodeFieldI64 k v with
          | .error e => .error e
          | .ok n => entryFold rest name? path? hash? size? (some n)
      else
        entryFold rest name? path? hash? size? mtime?

/-- Decode one manifest entry object into a `FileEntry`. -/
def decodeFileEntry : Json → Except String FileEntry
  | .obj fields => entryFold fields none none none none none
  | _ => .error "invalid type: expected a map"

/-- Decode a JSON array of entry objects, failing on the first bad entry. -/
def decodeEntries : List Json → Except String (List FileEntry)
  | [] => .ok []
  | j :: rest =>
      match decodeFileEntry j with
      | .error e => .error e
      | .ok e =>
        match decodeEntries rest with
        | .error e2 => .error e2
        | .ok es => .ok (e :: es)

/-- serde's derived enum deserializer for `Operation` with
`rename_all = "lowercase"`: exactly the strings `insert`, `update`,
`delete` are accepted; anything else is an unknown variant. -/
def decodeOperationKey (k : String) : Except String Operation :=
  if k = "insert" then .ok .Insert
  else if k = "update" then .ok .Update
  else if k = "delete" then .ok .Delete
  else .error ("unknown variant " ++ k)

/-- Insert a binding into the payload association list the way
`HashMap::insert` does: replace an existing key, otherwise append. -/
def assocInsert (m : FileSyncPayload) (k : Operation) (v : List FileEntry) :
    FileSyncPayload :=
  if m.any (fun p => p.1 = k) then
    m.map (fun p => if p.1 = k then (k, v) else p)
  else
    m ++ [(k, v)]

/-- serde's map visitor for `HashMap<Operation, Vec<FileEntry>>`: decode
each key as an `Operation` and each value as a `Vec<FileEntry>`, failing
the whole decode on the first bad key or value. -/
def payloadFold : List (String × Json) → FileSyncPayload → Except String FileSyncPayload
  | [], acc => .ok acc
  | (k, v) :: rest, acc =>
      match decodeOperationKey k with
      | .error e => .error e
      | .ok op =>
        match v with
        | .arr xs =>
          match decodeEntries xs with
          | .error e => .error e
          | .ok es => payloadFold rest (assocInsert acc op es)
        | _ => .error "invalid type: expected a sequence"

/-- `serde_json::from_str::<FileSyncPayload>` on the payload field. -/
def decodeSyncPayload : Json → Except String FileSyncPayload
  | .obj fields => payloadFold fields []
  | _ => .error "invalid type: expected a map"

/-! ## Stores -/

/-- One row of the `filehash` table. The migration files are not in `src/`;
the columns are those named by the queries in `main.rs`, and per the spec
`file_path` carries the unique constraint that makes a second insert of
the same path fail. -/
structure FileRow where
  file_path : String
  file_hash : Option String
  file_size : Int
  modified_time : Int
  system_path : String
deriving DecidableEq

/-- The metadata store state: the rows of `filehash` in insertion order. -/
abbrev Db := List FileRow

/-- Well-formedness of the store: `file_path` values are pairwise distinct,
as enforced by the unique constraint. -/
abbrev pathsNodup (db : Db) : Prop :=
  (db.map FileRow.file_path).Nodup

/-- `RETURNING file_path, file_hash, file_size, modified_time,
system_path AS file_name`: how a row is rendered back as a `FileEntry`. -/
def rowToEntry (r : FileRow) : FileEntry :=
  ⟨r.system_path, r.file_path, r.file_hash, r.file_size, r.modified_time⟩

/-- `handle_get_all`: `SELECT ... system_path AS file_name FROM filehash`. -/
def listAll (db : Db) : List FileEntry :=
  db.map rowToEntry

/-- Modelled from the spec: the blob store gateway (S3 client) as an
injectable environment of failure outcomes, since the S3 service itself is
outside the repository. `deleteErr k = some e` means `delete_object` on
key `k` fails with message `e`; `putErr` likewise for `put_object`. -/
structure BlobEnv where
  putErr : String → Option String
  deleteErr : String → Option String

/-- The gateway calls the handler makes, in order: the trace lets the
theorems speak about which store was called, on which key, and when. -/
inductive GatewayCall where
  | metaInsert (file_path : String) : GatewayCall
  | metaUpdate (file_path : String) : GatewayCall
  | metaDelete (file_path : String) : GatewayCall
  | blobPut (key : String) : GatewayCall
  | blobDelete (key : String) : GatewayCall
deriving DecidableEq

/-- sqlx's `Error::RowNotFound` display string, produced by `fetch_one`
on an `UPDATE ... RETURNING` that matched no row. -/
def rowNotFoundMsg : String :=
  "no rows returned by a query that expected to return at least one row"

/-- Modelled from the spec: the database error text for violating the
unique constraint on `file_path` (the migrations are not in `src/`; the
spec calls this `ConflictError`). -/
def duplicateKeyMsg : String :=
  "error returned from database: duplicate key value violates unique constraint"

/-! ## Reconciliation engine -/

/-- `generate_system_path` from the source. -/
def generate_system_path (filename : String) : String :=
  "data/" ++ filename

/-- The outcome the engine records for one manifest entry. -/
inductive EntryOutcome where
  | ok (e : FileEntry) : EntryOutcome
  | fail (f : FileFailure) : EntryOutcome
deriving DecidableEq

/-- The Insert arm of `handle_sync` for one entry: `INSERT INTO filehash`
with `system_path = generate_system_path(file.file_name)`; a unique
violation on `file_path` records a failure, success records the
`RETURNING` row (whose `file_name` is the `system_path`). -/
def insertStep (db : Db) (file : FileEntry) :
    Db × EntryOutcome × List GatewayCall :=
  let key := generate_system_path file.file_name
  if db.any (fun r => r.file_path = file.file_path) then
    (db, .fail ⟨file.file_path, duplicateKeyMsg⟩, [.metaInsert file.file_path])
  else
    let row : FileRow :=
      ⟨file.file_path, file.file_hash, file.file_size, file.modified_time, key⟩
    (db ++ [row], .ok (rowToEntry row), [.metaInsert file.file_path])

/-- The `SET` clause of the Update arm: overwrite `file_hash`, `file_size`
and `modified_time` with the entry's values, leaving `file_path` and
`system_path` alone. -/
def updateFields (file : FileEntry) (r : FileRow) : FileRow :=
  ⟨r.file_path, file.file_hash, file.file_size, file.modified_time, r.system_path⟩

/-- What the Update SQL statement does to one row of the table: rows whose
`file_path` matches the `WHERE` clause get the new field values, all other
rows are untouched. -/
def applyUpdate (file : FileEntry) (x : FileRow) : FileRow :=
  if x.file_path = file.file_path then updateFields file x else x

/-- The Update arm of `handle_sync` for one entry: `UPDATE filehash SET
... WHERE file_path = $4 RETURNING ...` via `fetch_one`; no matching row
yields sqlx's `RowNotFound` recorded as a failure. -/
def updateStep (db : Db) (file : FileEntry) :
    Db × EntryOutcome × List GatewayCall :=
  match db.find? (fun r => r.file_path = file.file_path) with
  | some r =>
      (db.map (applyUpdate file),
       .ok (rowToEntry (updateFields file r)),
       [.metaUpdate file.file_path])
  | none =>
      (db, .fail ⟨file.file_path, rowNotFoundMsg⟩, [.metaUpdate file.file_path])

/-- The Delete arm of `handle_sync` for one entry: `DELETE FROM filehash
WHERE file_path = $1 RETURNING system_path` via `fetch_optional`, then —
only when a row was removed — `delete_object` on the returned
`system_path`; a blob failure is recorded as `File delete failed: ...`
even though the row is already gone, and a missing row is the exact
failure `file not found in DB`. -/
def deleteStep (env : BlobEnv) (db : Db) (file : FileEntry) :
    Db × EntryOutcome × List GatewayCall :=
  match db.find? (fun r => r.file_path = file.file_path) with
  | some r =>
      let db2 := db.filter (fun x => x.file_path ≠ file.file_path)
      match env.deleteErr r.system_path with
      | none =>
          (db2, .ok file, [.metaDelete file.file_path, .blobDelete r.system_path])
      | some e =>
          (db2, .fail ⟨file.file_path, "File delete failed: " ++ e⟩,
           [.metaDelete file.file_path, .blobDelete r.system_path])
  | none =>
      (db, .fail ⟨file.file_path, "file not found in DB"⟩,
       [.metaDelete file.file_path])

/-- The per-entry step the operation kind's arm applies. -/
def stepFor (env : BlobEnv) : Operation → Db → FileEntry → Db × EntryOutcome × List GatewayCall
  | .Insert => insertStep
  | .Update => updateStep
  | .Delete => deleteStep env

/-- One operation kind's loop: apply the step to each entry in list order,
pushing each outcome onto the kind's success or failure list and carrying
the store state forward; no outcome stops the loop. -/
def runEntries (step : Db → FileEntry → Db × EntryOutcome × List GatewayCall)
    (db : Db) : List FileEntry → Db × OperationResult × List GatewayCall
  | [] => (db, ⟨[], []⟩, [])
  | f :: fs =>
      let s1 := step db f
      let rest := runEntries step s1.1 fs
      match s1.2.1 with
      | .ok e => (rest.1, ⟨e :: rest.2.1.success, rest.2.1.failure⟩, s1.2.2 ++ rest.2.2)
      | .fail x => (rest.1, ⟨rest.2.1.success, x :: rest.2.1.failure⟩, s1.2.2 ++ rest.2.2)

/-- The `for (cmd, files) in payload` loop: run each operation kind's
entries and insert the kind's `OperationResult` into the response. -/
def runPayload (env : BlobEnv) (db : Db) :
    FileSyncPayload → Db × SyncResponse × List GatewayCall
  | [] => (db, [], [])
  | (op, files) :: rest =>
      let s1 := runEntries (stepFor env op) db files
      let s2 := runPayload env s1.1 rest
      (s2.1, (op, s1.2.1) :: s2.2.1, s1.2.2 ++ s2.2.2)

/-! ## The multipart handler -/

/-- One multipart field of the request: a `payload` field carrying the
manifest JSON, a `files` field carrying content under an optional
filename, or a field with any other name (ignored by the loop). -/
inductive Part where
  | payload (j : Json) : Part
  | files (filename : Option String) : Part
  | other (name : String) : Part

/-- What the multipart field loop ends in: a panic from one of its
`.unwrap()` calls (a failed payload decode or a failed S3 put), or normal
completion with the last decoded payload, if any. -/
inductive PartsResult where
  | panic (msg : String) (calls : List GatewayCall) : PartsResult
  | done (payload : Option FileSyncPayload) (calls : List GatewayCall) : PartsResult
deriving DecidableEq

/-- The `while let ... multipart.next_field()` loop: a `payload` field is
decoded (a decode error panics via `.unwrap()`), overwriting any earlier
payload; a `files` field is uploaded to S3 under
`generate_system_path(filename)`, defaulting a missing filename to
`unknown` (a put error panics via `.unwrap()`); other fields are skipped. -/
def partsLoop (env : BlobEnv) (acc : Option FileSyncPayload)
    (calls : List GatewayCall) : List Part → PartsResult
  | [] => .done acc calls
  | .payload j :: rest =>
      match decodeSyncPayload j with
      | .ok p => partsLoop env (some p) calls rest
      | .error e => .panic e calls
  | .files fname :: rest =>
      let key := generate_system_path (fname.getD "unknown")
      match env.putErr key with
      | none => partsLoop env acc (calls ++ [.blobPut key]) rest
      | some e => .panic e (calls ++ [.blobPut key])
  | .other _ :: rest => partsLoop env acc calls rest

/-- The handler's overall outcome: a panic (no HTTP response is built), the
`(400, "Missing payload")` response, or the `(202, body)` response; each
carries the final store state and the trace of gateway calls. -/
inductive Outcome where
  | panic (msg : String) (db : Db) (calls : List GatewayCall) : Outcome
  | missingPayload (db : Db) (calls : List GatewayCall) : Outcome
  | accepted (resp : SyncResponse) (db : Db) (calls : List GatewayCall) : Outcome
deriving DecidableEq

/-- `handle_sync` from the source: read the multipart fields, then 400 when
no payload field arrived, otherwise reconcile the decoded payload and
answer 202 with the per-kind results. -/
def handle_sync (env : BlobEnv) (db : Db) (parts : List Part) : Outcome :=
  match partsLoop env none [] parts with
  | .panic e calls => .panic e db calls
  | .done none calls => .missingPayload db calls
  | .done (some p) calls =>
      let s := runPayload env db p
      .accepted s.2.1 s.1 (calls ++ s.2.2)

/-- The HTTP status code of an outcome; a panic produces none. -/
def Outcome.statusCode : Outcome → Option Nat
  | .panic _ _ _ => none
  | .missingPayload _ _ => some 400
  | .accepted _ _ _ => some 202

/-! ## Sample values used by the witnesses -/

/-- A blob environment in which every gateway call succeeds. -/
def sampleEnv : BlobEnv :=
  ⟨fun _ => none, fun _ => none⟩

/-- A blob environment in which deleting the key `data/keep.txt` fails. -/
def failingEnv : BlobEnv :=
  ⟨fun _ => none, fun k => if k = "data/keep.txt" then some "service error" else none⟩

/-- A sample metadata row. -/
def sampleRow : FileRow :=
  ⟨"keep.txt", some "h0", 1, 10, "data/keep.txt"⟩

/-- A second sample metadata row with a different path. -/
def otherRow : FileRow :=
  ⟨"other.txt", none, 2, 20, "data/other.txt"⟩

/-- A sample manifest entry whose path matches no sample row. -/
def sampleEntry : FileEntry :=
  ⟨"a.txt", "a.txt", some "abc", 10, 1000⟩

/-- A sample manifest entry whose path matches `sampleRow`. -/
def keepEntry : FileEntry :=
  ⟨"keep.txt", "keep.txt", some "h1", 5, 50⟩

/-! ## Helper lemmas -/

theorem find?_path_eq_none {db : Db} {p : String}
    (h : ∀ r ∈ db, r.file_path ≠ p) :
    db.find? (fun r => r.file_path = p) = none := by
  rw [List.find?_eq_none]
  intro x hx
  simp [h x hx]

theorem find?_path_eq_some {db : Db} {r : FileRow} {p : String}
    (hnd : pathsNodup db) (hr : r ∈ db) (hp : r.file_path = p) :
    db.find? (fun x => x.file_path = p) = some r := by
  induction db with
  | nil => cases hr
  | cons x xs ih =>
    have hnd2 : (x.file_path ∉ xs.map FileRow.file_path) ∧ pathsNodup xs := by
      simpa [pathsNodup] using hnd
    rcases List.mem_cons.mp hr with rfl | htl
    · simp [List.find?_cons, hp]
    · have hne : ¬ (x.file_path = p) := by
        intro hxp
        exact hnd2.1 (hxp ▸ hp ▸ List.mem_map_of_mem FileRow.file_path htl)
      rw [List.find?_cons_of_neg _ (by simpa using hne)]
      exact ih hnd2.2 htl

theorem decodeOperationKey_ok_cases {k : String} {op : Operation}
    (h : decodeOperationKey k = .ok op) :
    k = "insert" ∨ k = "update" ∨ k = "delete" := by
  by_cases h1 : k = "insert"
  · exact .inl h1
  by_cases h2 : k = "update"
  · exact .inr (.inl h2)
  by_cases h3 : k = "delete"
  · exact .inr (.inr h3)
  simp [decodeOperationKey, h1, h2, h3] at h

theorem payloadFold_unknown_key {fields : List (String × Json)} {k : String} {v : Json}
    (hk1 : k ≠ "insert") (hk2 : k ≠ "update") (hk3 : k ≠ "delete")
    (hmem : (k, v) ∈ fields) :
    ∀ acc, ∃ e, payloadFold fields acc = .error e := by
  induction fields with
  | nil => cases hmem
  | cons hd tl ih =>
    obtain ⟨k0, v0⟩ := hd
    intro acc
    simp only [payloadFold]
    split
    · exact ⟨_, rfl⟩
    · rename_i op hop
      have hk0 : k0 = "insert" ∨ k0 = "update" ∨ k0 = "delete" :=
        decodeOperationKey_ok_cases hop
      have htl : (k, v) ∈ tl := by
        rcases List.mem_cons.mp hmem with heq | htl
        · exfalso
          have : k = k0 := congrArg Prod.fst heq
          rcases hk0 with h | h | h
          · exact hk1 (this.trans h)
          · exact hk2 (this.trans h)
          · exact hk3 (this.trans h)
        · exact htl
      split
      · split
        · exact ⟨_, rfl⟩
        · exact ih htl _
      · exact ⟨_, rfl⟩

/-! ## Claims -/

/-- C5: for every path with no row in the metadata store, an Update entry
fails with sqlx's row-not-found error and a Delete entry fails with the
exact error string `file not found in DB`; in both cases the store is
returned unchanged, so its entry count is unchanged. -/
theorem missing_path_update_delete_fail (env : BlobEnv) (db : Db) (file : FileEntry)
    (h : ∀ r ∈ db, r.file_path ≠ file.file_path) :
    updateStep db file =
      (db, .fail ⟨file.file_path, rowNotFoundMsg⟩, [.metaUpdate file.file_path]) ∧
    deleteStep env db file =
      (db, .fail ⟨file.file_path, "file not found in DB"⟩, [.metaDelete file.file_path]) ∧
    (updateStep db file).1.length = db.length ∧
    (deleteStep env db file).1.length = db.length := by
  have hf := find?_path_eq_none h
  have h1 : updateStep db file =
      (db, .fail ⟨file.file_path, rowNotFoundMsg⟩, [.metaUpdate file.file_path]) := by
    simp [updateStep, hf]
  have h2 : deleteStep env db file =
      (db, .fail ⟨file.file_path, "file not found in DB"⟩, [.metaDelete file.file_path]) := by
    simp [deleteStep, hf]
  exact ⟨h1, h2, by rw [h1], by rw [h2]⟩

theorem missing_path_update_delete_fail_witness :
    updateStep [sampleRow] sampleEntry =
      ([sampleRow], .fail ⟨"a.txt", rowNotFoundMsg⟩, [.metaUpdate "a.txt"]) ∧
    (deleteStep sampleEnv [sampleRow] sampleEntry).2.1 =
      .fail ⟨"a.txt", "file not found in DB"⟩ ∧
    (deleteStep sampleEnv [sampleRow] sampleEntry).1.length = 1 := by
  have h := missing_path_update_delete_fail sampleEnv [sampleRow] sampleEntry (by decide)
  refine ⟨h.1, ?_, ?_⟩
  · rw [h.2.1]
    rfl
  · rw [h.2.1]
    rfl

/-- C6: once the multipart loop has ended with a successfully decoded
payload, `handle_sync` answers with HTTP status 202, no matter what the
entries did; per-entry failures live only in the response body. -/
theorem decoded_batch_status_202 (env : BlobEnv) (db : Db) (parts : List Part)
    (p : FileSyncPayload) (calls : List GatewayCall)
    (h : partsLoop env none [] parts = .done (some p) calls) :
    (handle_sync env db parts).statusCode = some 202 := by
  simp [handle_sync, h, Outcome.statusCode]

/-- A manifest JSON carrying one Delete entry for path `a.txt`. -/
def sampleDeleteJson : Json :=
  .obj [("delete", .arr [.obj [("file_name", .str "a.txt"), ("file_path", .str "a.txt"),
    ("file_hash", .str "abc"), ("file_size", .num 10), ("modified_time", .num 1000)]])]

theorem decoded_batch_status_202_witness :
    (handle_sync sampleEnv [] [Part.payload sampleDeleteJson]).statusCode = some 202 :=
  decoded_batch_status_202 sampleEnv [] [Part.payload sampleDeleteJson]
    [(.Delete, [sampleEntry])] [] (by decide)

/-- C10: when a multipart request carries two `payload` fields and the
first decodes successfully, the handler behaves exactly as if only the
second (and everything after it) had been sent: the first payload is
silently replaced and causes no store calls. -/
theorem last_payload_wins (env : BlobEnv) (db : Db) (j1 j2 : Json)
    (p1 p2 : FileSyncPayload) (rest : List Part)
    (h1 : decodeSyncPayload j1 = .ok p1) (h2 : decodeSyncPayload j2 = .ok p2) :
    handle_sync env db (Part.payload j1 :: Part.payload j2 :: rest) =
      handle_sync env db (Part.payload j2 :: rest) := by
  simp [handle_sync, partsLoop, h1, h2]

/-- A manifest JSON carrying one Insert entry for path `a.txt`. -/
def sampleInsertJson : Json :=
  .obj [("insert", .arr [.obj [("file_name", .str "a.txt"), ("file_path", .str "a.txt"),
    ("file_hash", .str "abc"), ("file_size", .num 10), ("modified_time", .num 1000)]])]

theorem last_payload_wins_witness :
    handle_sync sampleEnv [] [Part.payload sampleInsertJson, Part.payload sampleDeleteJson] =
      handle_sync sampleEnv [] [Part.payload sampleDeleteJson] :=
  last_payload_wins sampleEnv [] sampleInsertJson sampleDeleteJson
    [(.Insert, [sampleEntry])] [(.Delete, [sampleEntry])] [] (by rfl) (by rfl)

/-- C3 counterexample: a payload whose manifest has the unknown key
`rename` makes the handler panic on the decode `.unwrap()`; no gateway
call is made, but no HTTP response — in particular no malformed-request
error response — is produced (the status code is `none`). -/
theorem rename_key_panics :
    handle_sync sampleEnv [] [Part.payload (Json.obj [("rename", Json.arr [])])] =
      .panic "unknown variant rename" [] [] ∧
    (handle_sync sampleEnv [] [Part.payload (Json.obj [("rename", Json.arr [])])]).statusCode
      = none := by
  constructor
  · decide
  · decide

/-- C3 as amended: a manifest with an operation-kind key outside
{insert, update, delete} fails the decode as a whole and the handler
makes no metadata-store or blob-store call for any manifest entry, but it
panics on the decode error instead of returning a malformed-request error
response. -/
theorem unknown_kind_aborts_decode (env : BlobEnv) (db : Db)
    (fields : List (String × Json)) (rest : List Part) (k : String) (v : Json)
    (hk1 : k ≠ "insert") (hk2 : k ≠ "update") (hk3 : k ≠ "delete")
    (hmem : (k, v) ∈ fields) :
    ∃ e, decodeSyncPayload (Json.obj fields) = .error e ∧
      handle_sync env db (Part.payload (Json.obj fields) :: rest) = .panic e db [] := by
  obtain ⟨e, he⟩ := payloadFold_unknown_key hk1 hk2 hk3 hmem []
  have hdec : decodeSyncPayload (Json.obj fields) = .error e := he
  exact ⟨e, hdec, by simp [handle_sync, partsLoop, hdec]⟩

theorem unknown_kind_aborts_decode_witness :
    ∃ e, decodeSyncPayload (Json.obj [("rename", Json.arr [])]) = .error e ∧
      handle_sync sampleEnv [] [Part.payload (Json.obj [("rename", Json.arr [])])] =
        .panic e [] [] :=
  unknown_kind_aborts_decode sampleEnv [] [("rename", Json.arr [])] [] "rename"
    (Json.arr []) (by decide) (by decide) (by decide) (List.mem_cons_self _ _)

/-- C1: for a Delete entry whose path has a row in a well-formed store,
the engine deletes the metadata row first (the trace shows the metadata
delete before the blob delete, and the row is gone from the resulting
store), obtains the row's storage key, and only then calls blob delete on
that key; when the blob delete fails, the entry lands in the Delete
failure list annotated `File delete failed: ...` while the row stays
deleted — a later `ListAll` no longer shows the path. -/
theorem delete_blob_failure_row_stays_deleted (env : BlobEnv) (db : Db)
    (file : FileEntry) (r : FileRow) (e : String)
    (hnd : pathsNodup db) (hr : r ∈ db) (hp : r.file_path = file.file_path)
    (hfail : env.deleteErr r.system_path = some e) :
    deleteStep env db file =
      (db.filter (fun x => x.file_path ≠ file.file_path),
       .fail ⟨file.file_path, "File delete failed: " ++ e⟩,
       [.metaDelete file.file_path, .blobDelete r.system_path]) ∧
    (runEntries (stepFor env .Delete) db [file]).2.1 =
      ⟨[], [⟨file.file_path, "File delete failed: " ++ e⟩]⟩ ∧
    ∀ entry ∈ listAll (deleteStep env db file).1, entry.file_path ≠ file.file_path := by
  have hf := find?_path_eq_some hnd hr hp
  have hstep : deleteStep env db file =
      (db.filter (fun x => x.file_path ≠ file.file_path),
       .fail ⟨file.file_path, "File delete failed: " ++ e⟩,
       [.metaDelete file.file_path, .blobDelete r.system_path]) := by
    simp [deleteStep, hf, hfail]
  refine ⟨hstep, ?_, ?_⟩
  · simp [runEntries, stepFor, hstep]
  · rw [hstep]
    intro entry hmem
    simp only [listAll, List.mem_map] at hmem
    obtain ⟨x, hx, rfl⟩ := hmem
    have := (List.mem_filter.mp hx).2
    simpa [rowToEntry] using this

theorem delete_blob_failure_row_stays_deleted_witness :
    deleteStep failingEnv [sampleRow, otherRow] keepEntry =
      ([otherRow], .fail ⟨"keep.txt", "File delete failed: service error"⟩,
       [.metaDelete "keep.txt", .blobDelete "data/keep.txt"]) ∧
    ∀ entry ∈ listAll (deleteStep failingEnv [sampleRow, otherRow] keepEntry).1,
      entry.file_path ≠ "keep.txt" := by
  have h := delete_blob_failure_row_stays_deleted failingEnv [sampleRow, otherRow]
    keepEntry sampleRow "service error" (by decide) (List.mem_cons_self _ _)
    (by decide) (by decide)
  exact ⟨by rw [h.1]; rfl, h.2.2⟩

/-- C7: the storage key is always derived by the server as
`"data/" + filename`: `generate_system_path` concatenates the prefix; the
upload phase puts an attached file under exactly that key; a successful
Insert persists the row with `system_path = "data/" + file_name` and
returns that key as the persisted entry's `file_name`; and Delete calls
blob delete on the `system_path` stored in the row it removed — the key is
never read from any client-settable storage-key field. -/
theorem storage_key_derived_from_filename :
    (∀ f, generate_system_path f = "data/" ++ f) ∧
    (∀ (env : BlobEnv) (acc : Option FileSyncPayload) (calls : List GatewayCall)
        (name : String) (rest : List Part),
      env.putErr (generate_system_path name) = none →
      partsLoop env acc calls (Part.files (some name) :: rest) =
        partsLoop env acc (calls ++ [.blobPut ("data/" ++ name)]) rest) ∧
    (∀ (db : Db) (file : FileEntry), (∀ r ∈ db, r.file_path ≠ file.file_path) →
      insertStep db file =
        (db ++ [⟨file.file_path, file.file_hash, file.file_size, file.modified_time,
                 "data/" ++ file.file_name⟩],
         .ok ⟨"data/" ++ file.file_name, file.file_path, file.file_hash,
              file.file_size, file.modified_time⟩,
         [.metaInsert file.file_path])) ∧
    (∀ (env : BlobEnv) (db : Db) (file : FileEntry) (r : FileRow),
      pathsNodup db → r ∈ db → r.file_path = file.file_path →
      (deleteStep env db file).2.2 =
        [.metaDelete file.file_path, .blobDelete r.system_path]) := by
  refine ⟨fun f => rfl, ?_, ?_, ?_⟩
  · intro env acc calls name rest h
    simp only [generate_system_path] at h
    simp [partsLoop, h, generate_system_path]
  · intro db file h
    have hany : db.any (fun r => r.file_path = file.file_path) = false := by
      simp only [List.any_eq_false, decide_eq_true_eq]
      exact h
    simp [insertStep, hany, generate_system_path, rowToEntry]
  · intro env db file r hnd hr hp
    have hf := find?_path_eq_some hnd hr hp
    cases hdel : env.deleteErr r.system_path <;> simp [deleteStep, hf, hdel]

theorem storage_key_derived_from_filename_witness :
    generate_system_path "a.txt" = "data/" ++ "a.txt" ∧
    insertStep [] sampleEntry =
      ([⟨"a.txt", some "abc", 10, 1000, "data/" ++ "a.txt"⟩],
       .ok ⟨"data/" ++ "a.txt", "a.txt", some "abc", 10, 1000⟩,
       [.metaInsert "a.txt"]) ∧
    (deleteStep failingEnv [sampleRow] keepEntry).2.2 =
      [.metaDelete "keep.txt", .blobDelete "data/keep.txt"] := by
  have h := storage_key_derived_from_filename
  refine ⟨h.1 "a.txt", ?_, ?_⟩
  · rw [h.2.2.1 [] sampleEntry (by decide)]
    rfl
  · rw [h.2.2.2 failingEnv [sampleRow] keepEntry sampleRow (by decide)
      (List.mem_cons_self _ _) (by decide)]
    rfl

/-! ## More helper lemmas -/

theorem runEntries_length (step : Db → FileEntry → Db × EntryOutcome × List GatewayCall) :
    ∀ (files : List FileEntry) (db : Db),
      (runEntries step db files).2.1.success.length +
        (runEntries step db files).2.1.failure.length = files.length
  | [], db => by simp [runEntries]
  | f :: fs, db => by
    have ih := runEntries_length step fs (step db f).1
    simp only [runEntries]
    cases h : (step db f).2.1 <;> simp [h] <;> omega

theorem runPayload_mem (env : BlobEnv) (op : Operation) (files : List FileEntry) :
    ∀ (payload : FileSyncPayload) (db : Db), (op, files) ∈ payload →
      ∃ res, (op, res) ∈ (runPayload env db payload).2.1 ∧
        res.success.length + res.failure.length = files.length
  | [], _, h => absurd h (List.not_mem_nil _)
  | (o2, fs2) :: tl, db, hmem => by
    rcases List.mem_cons.mp hmem with heq | htl
    · injection heq with ho hf
      subst ho
      subst hf
      exact ⟨(runEntries (stepFor env op) db files).2.1, by simp [runPayload],
        runEntries_length _ _ _⟩
    · obtain ⟨res, h1, h2⟩ :=
        runPayload_mem env op files tl (runEntries (stepFor env o2) db fs2).1 htl
      exact ⟨res, by simp only [runPayload]; exact List.mem_cons_of_mem _ h1, h2⟩

theorem mem_zip_self {α : Type} : ∀ {l : List α} {pr : α × α}, pr ∈ l.zip l → pr.2 = pr.1
  | [], _, h => absurd h (List.not_mem_nil _)
  | _ :: xs, pr, h => by
    rw [List.zip_cons_cons] at h
    rcases List.mem_cons.mp h with heq | htl
    · rw [heq]
    · exact mem_zip_self htl

theorem mem_zip_map {α : Type} (g : α → α) :
    ∀ {l : List α} {pr : α × α}, pr ∈ l.zip (l.map g) → pr.2 = g pr.1
  | [], _, h => absurd h (List.not_mem_nil _)
  | _ :: xs, pr, h => by
    rw [List.map_cons, List.zip_cons_cons] at h
    rcases List.mem_cons.mp h with heq | htl
    · rw [heq]
    · exact mem_zip_map g htl

theorem applyUpdate_idem (file : FileEntry) (x : FileRow) :
    applyUpdate file (applyUpdate file x) = applyUpdate file x := by
  by_cases hx : x.file_path = file.file_path
  · simp [applyUpdate, updateFields, hx]
  · simp [applyUpdate, hx]

/-! ## Remaining claims -/

/-- C2: for every decoded batch manifest and every operation kind it
contains, the response holds a result for that kind in which every input
entry of the kind landed in exactly one of the success and failure lists
(their lengths add up to the input length); no entry's failure aborts the
batch, which still answers through `Outcome.accepted`. -/
theorem batch_entry_outcome_totality (env : BlobEnv) (db : Db) (j : Json)
    (payload : FileSyncPayload) (op : Operation) (files : List FileEntry)
    (hdec : decodeSyncPayload j = .ok payload)
    (hmem : (op, files) ∈ payload) :
    ∃ res db2 calls,
      handle_sync env db [Part.payload j] =
        .accepted (runPayload env db payload).2.1 db2 calls ∧
      (op, res) ∈ (runPayload env db payload).2.1 ∧
      res.success.length + res.failure.length = files.length := by
  obtain ⟨res, h1, h2⟩ := runPayload_mem env op files payload db hmem
  exact ⟨res, (runPayload env db payload).1, (runPayload env db payload).2.2,
    by simp [handle_sync, partsLoop, hdec], h1, h2⟩

theorem batch_entry_outcome_totality_witness :
    ∃ res db2 calls,
      handle_sync sampleEnv [] [Part.payload sampleDeleteJson] =
        .accepted (runPayload sampleEnv [] [(.Delete, [sampleEntry])]).2.1 db2 calls ∧
      (Operation.Delete, res) ∈ (runPayload sampleEnv [] [(.Delete, [sampleEntry])]).2.1 ∧
      res.success.length + res.failure.length = 1 :=
  batch_entry_outcome_totality sampleEnv [] sampleDeleteJson
    [(.Delete, [sampleEntry])] .Delete [sampleEntry] (by rfl) (by decide)

/-- C8: an Update entry for a path that exists in the store succeeds, and
running the identical entry again succeeds as well and leaves the store
exactly as the first run left it: the two runs end in the same final
state as one run. -/
theorem update_idempotent (db : Db) (file : FileEntry) (r : FileRow)
    (hr : r ∈ db) (hp : r.file_path = file.file_path) :
    (∃ e1, (updateStep db file).2.1 = .ok e1) ∧
    (∃ e2, (updateStep (updateStep db file).1 file).2.1 = .ok e2) ∧
    (updateStep (updateStep db file).1 file).1 = (updateStep db file).1 := by
  have hsome : (db.find? (fun x => x.file_path = file.file_path)).isSome := by
    rw [List.find?_isSome]
    exact ⟨r, hr, by simp [hp]⟩
  obtain ⟨r1, hr1⟩ := Option.isSome_iff_exists.mp hsome
  have hstep1 : updateStep db file =
      (db.map (applyUpdate file), .ok (rowToEntry (updateFields file r1)),
       [.metaUpdate file.file_path]) := by
    simp [updateStep, hr1]
  have hmem2 : applyUpdate file r ∈ db.map (applyUpdate file) :=
    List.mem_map_of_mem _ hr
  have hpath2 : (applyUpdate file r).file_path = file.file_path := by
    simp [applyUpdate, updateFields, hp]
  have hsome2 : ((db.map (applyUpdate file)).find?
      (fun x => x.file_path = file.file_path)).isSome := by
    rw [List.find?_isSome]
    exact ⟨applyUpdate file r, hmem2, by simp [hpath2]⟩
  obtain ⟨r2, hr2⟩ := Option.isSome_iff_exists.mp hsome2
  have hstep2 : updateStep (db.map (applyUpdate file)) file =
      ((db.map (applyUpdate file)).map (applyUpdate file),
       .ok (rowToEntry (updateFields file r2)), [.metaUpdate file.file_path]) := by
    simp [updateStep, hr2]
  have hmapmap : (db.map (applyUpdate file)).map (applyUpdate file) =
      db.map (applyUpdate file) := by
    rw [List.map_map]
    have : applyUpdate file ∘ applyUpdate file = applyUpdate file := by
      funext x
      exact applyUpdate_idem file x
    rw [this]
  refine ⟨⟨rowToEntry (updateFields file r1), by rw [hstep1]⟩, ?_, ?_⟩
  · rw [hstep1]
    exact ⟨rowToEntry (updateFields file r2), by rw [hstep2]⟩
  · rw [hstep1]
    rw [hstep2]
    exact hmapmap

theorem update_idempotent_witness :
    (∃ e1, (updateStep [sampleRow, otherRow] keepEntry).2.1 = .ok e1) ∧
    (∃ e2, (updateStep (updateStep [sampleRow, otherRow] keepEntry).1 keepEntry).2.1
      = .ok e2) ∧
    (updateStep (updateStep [sampleRow, otherRow] keepEntry).1 keepEntry).1 =
      (updateStep [sampleRow, otherRow] keepEntry).1 :=
  update_idempotent [sampleRow, otherRow] keepEntry sampleRow
    (List.mem_cons_self _ _) (by decide)

/-- C9: an Update entry makes exactly one metadata-store call and no
blob-store call, keeps the store's length, and transforms the store
pointwise: every row keeps its `file_path` and `system_path`; a row whose
path does not match the entry is untouched, and a row whose path matches
only has its `file_hash`, `file_size` and `modified_time` replaced. -/
theorem update_touches_only_entry_fields (db : Db) (file : FileEntry) :
    (updateStep db file).2.2 = [.metaUpdate file.file_path] ∧
    (updateStep db file).1.length = db.length ∧
    ∀ pr ∈ db.zip (updateStep db file).1,
      pr.2.file_path = pr.1.file_path ∧
      pr.2.system_path = pr.1.system_path ∧
      (pr.1.file_path ≠ file.file_path → pr.2 = pr.1) ∧
      (pr.1.file_path = file.file_path → pr.2 = updateFields file pr.1) := by
  cases hfind : db.find? (fun r => r.file_path = file.file_path) with
  | none =>
    have hall := List.find?_eq_none.mp hfind
    have hdb : (updateStep db file).1 = db := by simp [updateStep, hfind]
    refine ⟨by simp [updateStep, hfind], by rw [hdb], ?_⟩
    intro pr hpr
    obtain ⟨a, b⟩ := pr
    rw [hdb] at hpr
    have hba : b = a := mem_zip_self hpr
    have hmem : a ∈ db := (List.of_mem_zip hpr).1
    refine ⟨by rw [hba], by rw [hba], fun _ => hba, fun hpath => ?_⟩
    exfalso
    have h2 := hall a hmem
    rw [decide_eq_true_eq] at h2
    exact h2 hpath
  | some r =>
    have hdb : (updateStep db file).1 = db.map (applyUpdate file) := by
      simp [updateStep, hfind]
    refine ⟨by simp [updateStep, hfind], by rw [hdb]; simp, ?_⟩
    intro pr hpr
    obtain ⟨a, b⟩ := pr
    rw [hdb] at hpr
    have hb : b = applyUpdate file a := mem_zip_map _ hpr
    by_cases hpath : a.file_path = file.file_path
    · rw [hb]
      unfold applyUpdate
      rw [if_pos hpath]
      exact ⟨by simp [updateFields], by simp [updateFields],
        fun hne => absurd hpath hne, fun _ => rfl⟩
    · rw [hb]
      unfold applyUpdate
      rw [if_neg hpath]
      exact ⟨rfl, rfl, fun _ => rfl, fun hcontra => absurd hcontra hpath⟩

theorem update_touches_only_entry_fields_witness :
    (updateStep [otherRow, sampleRow] keepEntry).2.2 = [.metaUpdate "keep.txt"] ∧
    (updateFields keepEntry sampleRow).system_path = sampleRow.system_path ∧
    (updateFields keepEntry sampleRow).file_path = sampleRow.file_path := by
  have h := update_touches_only_entry_fields [otherRow, sampleRow] keepEntry
  have h2 := h.2.2 (sampleRow, updateFields keepEntry sampleRow) (by decide)
  exact ⟨h.1, h2.2.1, h2.1⟩

/-- One entry object carrying exactly the five fields the decode can use;
`file_hash` is present only when the hash is `some`. -/
def hashField : Option String → List (String × Json)
  | none => []
  | some h => [("file_hash", .str h)]

/-- An entry object with `file_name`, `file_path`, optional `file_hash`,
`file_size` and `modified_time`. -/
def entryJson (name path : String) (hash : Option String) (size mtime : Int) : Json :=
  .obj ([("file_name", .str name), ("file_path", .str path)] ++ hashField hash ++
        [("file_size", .num size), ("modified_time", .num mtime)])

/-- C4 counterexample: the spec's §8 example manifest — entries carrying
only `file_path`, `file_size`, `modified_time` for Insert and only
`file_path` for Delete — is rejected by the decode with a missing
`file_name` error, so the claimed field set is not sufficient. -/
theorem spec_fields_manifest_rejected :
    decodeSyncPayload (Json.obj
      [("insert", Json.arr [Json.obj [("file_path", Json.str "a.txt"),
          ("file_size", Json.num 10), ("modified_time", Json.num 1000)]]),
       ("delete", Json.arr [Json.obj [("file_path", Json.str "missing.txt")]])]) =
      .error "missing field file_name" := by
  rfl

/-- C4 as amended: the decode requires `file_name`, `file_path`,
`file_size` and `modified_time` on every entry — Delete entries included —
with `file_hash` the only optional field; an entry object carrying exactly
these fields (with any in-range integer values) is accepted, both alone
and inside a manifest under a `delete` key. -/
theorem entry_decode_requires_file_name (name path : String) (hash : Option String)
    (size mtime : Int)
    (hs1 : i64Min ≤ size) (hs2 : size ≤ i64Max)
    (hm1 : i64Min ≤ mtime) (hm2 : mtime ≤ i64Max) :
    decodeFileEntry (entryJson name path hash size mtime) =
      .ok ⟨name, path, hash, size, mtime⟩ ∧
    decodeSyncPayload (.obj [("delete", .arr [entryJson name path hash size mtime])]) =
      .ok [(.Delete, [⟨name, path, hash, size, mtime⟩])] := by
  have hentry : decodeFileEntry (entryJson name path hash size mtime) =
      .ok ⟨name, path, hash, size, mtime⟩ := by
    cases hash with
    | none =>
      simp [entryJson, hashField, decodeFileEntry, entryFold, decodeFieldString,
        decodeFieldI64, hs1, hs2, hm1, hm2]
    | some h =>
      simp [entryJson, hashField, decodeFileEntry, entryFold, decodeFieldString,
        decodeFieldOptString, decodeFieldI64, hs1, hs2, hm1, hm2]
  refine ⟨hentry, ?_⟩
  simp [decodeSyncPayload, payloadFold, decodeOperationKey, decodeEntries, hentry,
    assocInsert]

theorem entry_decode_requires_file_name_witness :
    decodeFileEntry (entryJson "a.txt" "a.txt" (some "abc") 10 1000) =
      .ok ⟨"a.txt", "a.txt", some "abc", 10, 1000⟩ ∧
    decodeSyncPayload (.obj [("delete", .arr [entryJson "a.txt" "a.txt" (some "abc") 10 1000])]) =
      .ok [(.Delete, [⟨"a.txt", "a.txt", some "abc", 10, 1000⟩])] :=
  entry_decode_requires_file_name "a.txt" "a.txt" (some "abc") 10 1000
    (by decide) (by decide) (by decide) (by decide)

end PocketServer
